import Mathlib

/-!
Verification of the httpie-style CLI HTTP client (`src/main.rs`,
`src/http/mod.rs`, `src/http/get.rs`, `src/http/post.rs`).

The repository holds two duplicated versions of the same program: a
self-contained `src/main.rs` and a refactored `src/http` module.  Where the
two copies differ (error handling of `print_body`, `get_content_type`, and
the value parser attached to the POST `body` field) both are embedded: the
`Http` namespace follows `src/http/mod.rs` / `src/http/post.rs`, and the
`MainRs` namespace follows `src/main.rs`.

External crates (`url`/`reqwest::Url`, `mime`, `jsonxf`, `syntect`) are not
part of the repository; they are modelled from the specification at their
interface boundary, each with a doc comment saying so.  Machine-level
effects (actual terminal writes) are embedded as the strings the program
would write; the `colored`/`syntect` colour escapes are omitted, which the
specification explicitly allows ("plain (no-color) output is an acceptable
simplified substitute").

Panicking (`unwrap` on an `Err`/`None`) is embedded by the `Outcome.crash`
constructor, so that "returns an error" and "crashes the process" are
distinguishable outcomes.
-/

/-- Outcome of running a code path that may panic (Rust `unwrap` on an
`Err`): either a normal value or a process crash with a panic message. -/
inductive Outcome (α : Type) where
  | ok (a : α)
  | crash (msg : String)
deriving DecidableEq, Repr

/-! ## KV-Pair parser (`src/http/post.rs` lines 21-42, `src/main.rs` lines 55-78)

Rust `str::split("=")` splits on **every** occurrence of `=`, keeping empty
segments, and always yields at least one segment.  `splitEq` embeds it on
`List Char`; `KvPair.from_str` then takes the first two segments exactly as
`parts.next()` twice does, erroring when the second `next()` is `None`. -/

/-- Embedding of Rust `s.split("=")`: split on every `=`, keeping empty
segments; always returns a non-empty list of segments. -/
def splitEq : List Char → List (List Char)
  | [] => [[]]
  | c :: cs =>
    if c = '=' then [] :: splitEq cs
    else
      match splitEq cs with
      | s :: ss => (c :: s) :: ss
      | [] => [[c]]

/-- `KvPair` (`src/http/post.rs` lines 21-25): a parsed `key=value` token. -/
structure KvPair where
  key : String
  value : String
deriving DecidableEq, Repr

/-- `KvPair::from_str` (`src/http/post.rs` lines 27-38, identical logic in
`src/main.rs` lines 63-74): split on `=`, take the first two segments as key
and value; if the second is absent, fail with `Failed to parse {s}`. -/
def KvPair.from_str (s : String) : Except String KvPair :=
  match splitEq s.data with
  | k :: v :: _ => .ok ⟨String.mk k, String.mk v⟩
  | _ => .error ("Failed to parse " ++ s)

/-- `parse_kv_pair` (`src/http/post.rs` lines 40-42): defers to `from_str`. -/
def parse_kv_pair (s : String) : Except String KvPair :=
  KvPair.from_str s

-- `splitEq` never returns the empty list.
theorem splitEq_ne_nil (l : List Char) : splitEq l ≠ [] := by
  induction l with
  | nil => simp [splitEq]
  | cons c cs ih =>
    simp only [splitEq]
    split
    · simp
    · split
      · simp
      · simp

-- A list with no `=` is returned as the single segment.
theorem splitEq_of_not_mem (l : List Char) (h : '=' ∉ l) : splitEq l = [l] := by
  induction l with
  | nil => rfl
  | cons c cs ih =>
    have hc : c ≠ '=' := fun hc => h (hc ▸ List.mem_cons_self c cs)
    have hcs : '=' ∉ cs := fun hm => h (List.mem_cons_of_mem c hm)
    simp only [splitEq, if_neg hc, ih hcs]

-- Splitting `k ++ '=' :: rest` with `=`-free `k` peels off `k` as the first segment.
theorem splitEq_append (k rest : List Char) (h : '=' ∉ k) :
    splitEq (k ++ '=' :: rest) = k :: splitEq rest := by
  induction k with
  | nil => simp [splitEq]
  | cons c cs ih =>
    have hc : c ≠ '=' := fun hc => h (hc ▸ List.mem_cons_self c cs)
    have hcs : '=' ∉ cs := fun hm => h (List.mem_cons_of_mem c hm)
    simp only [List.cons_append, splitEq, if_neg hc, List.append_eq, ih hcs]

/-! ## MIME types (the `mime` crate, an external collaborator) -/

/-- Modelled from the spec: the external `mime` crate (absent from `src/`).
"**ContentType**: a parsed MIME type" — a type, a subtype and a list of
parameters; equality is structural, so `application/json; charset=utf-8`
is a distinct value from `application/json` ("an exact-MIME comparison"). -/
structure Mime where
  type : String
  subtype : String
  params : List (String × String)
deriving DecidableEq, Repr

/-- The constant `mime::APPLICATION_JSON`: essence `application/json`,
no parameters. -/
def Mime.APPLICATION_JSON : Mime := ⟨"application", "json", []⟩

/-- Characters allowed in a MIME token (type, subtype, parameter name). -/
def isTokenChar (c : Char) : Bool :=
  c.isAlphanum ||
    c ∈ ['!', '#', '$', '&', '^', '_', '.', '|', '~', '+', '-', '*', '%']

/-- Split a character list on every occurrence of `sep`, keeping empty
segments; always returns a non-empty list of segments. -/
def splitChar (sep : Char) : List Char → List (List Char)
  | [] => [[]]
  | c :: cs =>
    if c = sep then [] :: splitChar sep cs
    else
      match splitChar sep cs with
      | s :: ss => (c :: s) :: ss
      | [] => [[c]]

/-- Drop ASCII whitespace from both ends of a character list. -/
def trimChars (l : List Char) : List Char :=
  ((l.dropWhile Char.isWhitespace).reverse.dropWhile Char.isWhitespace).reverse

/-- One `name=value` MIME parameter segment, or `none` if malformed. -/
def parseMimeParam (p : List Char) : Option (String × String) :=
  match splitChar '=' (trimChars p) with
  | [k, v] =>
    if k.isEmpty || v.isEmpty then none
    else if k.all isTokenChar then
      some (String.mk (k.map Char.toLower), String.mk v)
    else none
  | _ => none

/-- Modelled from the spec: `str::parse::<Mime>` of the external `mime`
crate (absent from `src/`).  Parses `type/subtype` followed by optional
`; name=value` parameters, lowercasing the case-insensitive pieces; yields
`none` ("absent if ... unparseable") when the essence is not two non-empty
tokens separated by `/` or a parameter segment is malformed. -/
def Mime.parse (s : String) : Option Mime :=
  match splitChar ';' s.data with
  | [] => none
  | essence :: rest =>
    match splitChar '/' (trimChars essence) with
    | [t, sub] =>
      if t.isEmpty || sub.isEmpty then none
      else if !(t.all isTokenChar && sub.all isTokenChar) then none
      else
        let ps := rest.map parseMimeParam
        if ps.all Option.isSome then
          some ⟨String.mk (t.map Char.toLower), String.mk (sub.map Char.toLower),
            ps.reduceOption⟩
        else none
    | _ => none

/-! ## URL validation (`src/http/mod.rs` lines 23-26, `src/main.rs` lines 48-53) -/

/-- A parsed absolute URL: its scheme and host. -/
structure Url where
  scheme : String
  host : String
deriving DecidableEq, Repr

/-- Characters allowed in a URL scheme after the leading letter. -/
def isSchemeChar (c : Char) : Bool :=
  c.isAlphanum || c ∈ ['+', '-', '.']

/-- Modelled from the spec: `str::parse::<reqwest::Url>` of the external
`url` crate (absent from `src/`).  "succeeds iff the string parses as an
absolute URL with a scheme and host": a non-empty scheme (leading letter,
then letters/digits/`+`/`-`/`.`), the literal `://`, then a non-empty host
(the authority up to the first `/`, `?` or `#`, with any user-info before
`@` and any `:port` stripped). -/
def Url.parse (s : String) : Option Url :=
  let cs := s.data
  let scheme := cs.takeWhile (fun c => c ≠ ':')
  let rest := cs.drop scheme.length
  if scheme.isEmpty then none
  else if !(scheme.headD ' ').isAlpha then none
  else if !(scheme.all isSchemeChar) then none
  else
    match rest with
    | ':' :: '/' :: '/' :: r =>
      let authority := r.takeWhile (fun c => c ≠ '/' && c ≠ '?' && c ≠ '#')
      let afterUser :=
        if authority.contains '@' then
          (authority.reverse.takeWhile (fun c => c ≠ '@')).reverse
        else authority
      let host := afterUser.takeWhile (fun c => c ≠ ':')
      if host.isEmpty then none
      else some ⟨String.mk scheme, String.mk host⟩
    | _ => none

/-- `parse_url` (`src/http/mod.rs` lines 23-26, identically `src/main.rs`
lines 48-53): parse the string as a `Url` for validation only, and on
success return the original string unchanged. -/
def parse_url (s : String) : Except String String :=
  match Url.parse s with
  | some _ => .ok s
  | none => .error ("invalid URL: " ++ s)

/-! ## JSON pretty-printing (the `jsonxf` crate, an external collaborator)

`jsonxf::pretty_print` re-indents JSON text with 2-space indentation and
fails on input that is not valid JSON.  The model parses the text into a
JSON value tree and prints it back with 2-space indentation. -/

/-- A JSON value.  Number and string atoms keep their raw source text:
the formatter reflows whitespace only and never renormalises atoms. -/
inductive Json where
  | null
  | boolean (b : Bool)
  | num (raw : String)
  | str (raw : String)
  | arr (xs : List Json)
  | obj (kvs : List (String × Json))
deriving Repr

/-- Drop leading JSON whitespace. -/
def skipWs (cs : List Char) : List Char :=
  cs.dropWhile (fun c => c = ' ' || c = '\t' || c = '\n' || c = '\r')

/-- Scan the inside of a JSON string literal after the opening quote,
keeping escape sequences raw; returns the body and the rest after the
closing quote. -/
def scanStr : Nat → List Char → Option (List Char × List Char)
  | 0, _ => none
  | _ + 1, [] => none
  | fuel + 1, c :: cs =>
    if c = '"' then some ([], cs)
    else if c = '\\' then
      match cs with
      | [] => none
      | e :: cs2 => (scanStr fuel cs2).map (fun p => (c :: e :: p.1, p.2))
    else (scanStr fuel cs).map (fun p => (c :: p.1, p.2))

/-- A character that may appear in a JSON number literal. -/
def isNumChar (c : Char) : Bool :=
  c.isDigit || c ∈ ['-', '+', '.', 'e', 'E']

mutual

/-- Parse one JSON value (fuel-bounded recursive descent). -/
def parseVal : Nat → List Char → Option (Json × List Char)
  | 0, _ => none
  | fuel + 1, cs =>
    match skipWs cs with
    | [] => none
    | '{' :: r =>
      match skipWs r with
      | '}' :: r2 => some (.obj [], r2)
      | r2 => (parseMembers fuel r2).map (fun p => (.obj p.1, p.2))
    | '[' :: r =>
      match skipWs r with
      | ']' :: r2 => some (.arr [], r2)
      | r2 => (parseElems fuel r2).map (fun p => (.arr p.1, p.2))
    | '"' :: r => (scanStr (fuel + 1) r).map (fun p => (.str (String.mk p.1), p.2))
    | 't' :: 'r' :: 'u' :: 'e' :: r => some (.boolean true, r)
    | 'f' :: 'a' :: 'l' :: 's' :: 'e' :: r => some (.boolean false, r)
    | 'n' :: 'u' :: 'l' :: 'l' :: r => some (.null, r)
    | c :: r =>
      if c.isDigit || c = '-' then
        let digits := c :: r.takeWhile isNumChar
        some (.num (String.mk digits), r.dropWhile isNumChar)
      else none

/-- Parse the members of a non-empty JSON object, up to and including the
closing brace. -/
def parseMembers : Nat → List Char → Option (List (String × Json) × List Char)
  | 0, _ => none
  | fuel + 1, cs =>
    match skipWs cs with
    | '"' :: r =>
      match scanStr (fuel + 1) r with
      | none => none
      | some (key, r2) =>
        match skipWs r2 with
        | ':' :: r3 =>
          match parseVal fuel r3 with
          | none => none
          | some (v, r4) =>
            match skipWs r4 with
            | ',' :: r5 =>
              (parseMembers fuel r5).map
                (fun p => ((String.mk key, v) :: p.1, p.2))
            | '}' :: r5 => some ([(String.mk key, v)], r5)
            | _ => none
        | _ => none
    | _ => none

/-- Parse the elements of a non-empty JSON array, up to and including the
closing bracket. -/
def parseElems : Nat → List Char → Option (List Json × List Char)
  | 0, _ => none
  | fuel + 1, cs =>
    match parseVal fuel cs with
    | none => none
    | some (v, r) =>
      match skipWs r with
      | ',' :: r2 => (parseElems fuel r2).map (fun p => (v :: p.1, p.2))
      | ']' :: r2 => some ([v], r2)
      | _ => none

end

/-- Parse a whole string as one JSON document (trailing whitespace only). -/
def Json.parse (s : String) : Option Json :=
  match parseVal (s.data.length + 1) s.data with
  | some (j, rest) => if (skipWs rest).isEmpty then some j else none
  | none => none

/-- `2*n` spaces of indentation. -/
def indentStr (n : Nat) : String := String.mk (List.replicate (2 * n) ' ')

mutual

/-- Print a JSON value at nesting level `ind` with 2-space indentation,
object/array entries each on their own line. -/
def Json.pretty : Json → Nat → String
  | .null, _ => "null"
  | .boolean true, _ => "true"
  | .boolean false, _ => "false"
  | .num raw, _ => raw
  | .str raw, _ => "\"" ++ raw ++ "\""
  | .arr [], _ => "[]"
  | .arr (x :: xs), ind =>
    "[\n" ++ Json.prettyElems (x :: xs) (ind + 1) ++ indentStr ind ++ "]"
  | .obj [], _ => "\x7b\x7d"
  | .obj (m :: ms), ind =>
    "\x7b\n" ++ Json.prettyMembers (m :: ms) (ind + 1) ++ indentStr ind ++ "\x7d"

/-- Print array elements, one per line, comma-separated. -/
def Json.prettyElems : List Json → Nat → String
  | [], _ => ""
  | [x], ind => indentStr ind ++ Json.pretty x ind ++ "\n"
  | x :: y :: xs, ind =>
    indentStr ind ++ Json.pretty x ind ++ ",\n" ++ Json.prettyElems (y :: xs) ind

/-- Print object members, one per line, comma-separated. -/
def Json.prettyMembers : List (String × Json) → Nat → String
  | [], _ => ""
  | [(k, v)], ind =>
    indentStr ind ++ "\"" ++ k ++ "\": " ++ Json.pretty v ind ++ "\n"
  | (k, v) :: m :: ms, ind =>
    indentStr ind ++ "\"" ++ k ++ "\": " ++ Json.pretty v ind ++ ",\n" ++
      Json.prettyMembers (m :: ms) ind

end

/-- Modelled from the spec: `jsonxf::pretty_print` (external crate, absent
from `src/`).  "pretty-print the text as JSON (re-indent, insert
whitespace)" with 2-space indentation; "if the body is not valid JSON,
pretty-printing fails". -/
def Jsonxf.pretty_print (s : String) : Except String String :=
  match Json.parse s with
  | some j => .ok (Json.pretty j 0)
  | none => .error ("Invalid JSON: " ++ s)

/-! ## Response rendering (`src/http/mod.rs` lines 28-84, `src/main.rs` lines 95-146) -/

/-- The received response as far as rendering observes it: the Debug
rendering of the protocol version (e.g. `HTTP/1.1`), the Display rendering
of the status (e.g. `200 OK`), the headers in transport iteration order,
and the body text. -/
structure Response where
  version : String
  status : String
  headers : List (String × String)
  body : String
deriving DecidableEq, Repr

/-- Modelled from the spec: `reqwest::header::HeaderValue::to_str`
(external crate, absent from `src/`).  Succeeds iff every character of the
value is visible ASCII or space. -/
def headerValueToStr (v : String) : Except Unit String :=
  if v.data.all (fun c => 32 ≤ c.toNat && c.toNat ≤ 126) then .ok v
  else .error ()

/-- `get_content_type` (`src/http/mod.rs` lines 78-84): look up the
`Content-Type` header; `to_str` failure or an unparseable MIME value both
yield `none`. -/
def Http.get_content_type (r : Response) : Option Mime :=
  match (r.headers.find? (fun h => h.1 == "content-type")).map
      (fun h => headerValueToStr h.2) with
  | some (.ok v) => Mime.parse v
  | _ => none

/-- `get_content_type` (`src/main.rs` lines 142-146): the same lookup, but
`to_str().unwrap()` and `parse().unwrap()` crash the process when the
header value is not ASCII or not a parseable MIME type. -/
def MainRs.get_content_type (r : Response) : Outcome (Option Mime) :=
  match r.headers.find? (fun h => h.1 == "content-type") with
  | none => .ok none
  | some h =>
    match headerValueToStr h.2 with
    | .error _ => .crash "called Result::unwrap() on an Err value"
    | .ok v =>
      match Mime.parse v with
      | none => .crash "called Result::unwrap() on an Err value"
      | some m => .ok (some m)

/-- What `print_body` writes: either the body verbatim or the
pretty-printed JSON passed through the highlighting pass. -/
inductive BodyOutput where
  | verbatim (text : String)
  | jsonHighlighted (pretty : String)
deriving DecidableEq, Repr

/-- `syntect::util::LinesWithEndings`: split into lines, each keeping its
trailing newline; a final fragment without a newline is kept too. -/
def linesWithEndingsAux : List Char → List Char → List String
  | acc, [] => if acc.isEmpty then [] else [String.mk acc.reverse]
  | acc, c :: cs =>
    if c = '\n' then
      String.mk (acc.reverse ++ [c]) :: linesWithEndingsAux [] cs
    else linesWithEndingsAux (c :: acc) cs

/-- Modelled from the spec: `syntect_print` (`src/http/mod.rs` lines
62-76) highlights each line of the string with the `syntect` crate
(absent from `src/`) and prints it, then prints one final newline.  The
colour escape sequences are omitted: the spec allows "plain (no-color)
output is an acceptable simplified substitute", and the escapes wrap the
same character content. -/
def syntect_print_out (s : String) : String :=
  String.join (linesWithEndingsAux [] s.data) ++ "\n"

/-- The text a `BodyOutput` puts on the terminal: `println!("{}", body)`
for the verbatim branch, the highlighting pass for the JSON branch. -/
def BodyOutput.rendered : BodyOutput → String
  | .verbatim t => t ++ "\n"
  | .jsonHighlighted p => syntect_print_out p

/-- `print_body` (`src/http/mod.rs` lines 52-60): on `application/json`
exactly, pretty-print (propagating failure with `?`) and highlight;
otherwise print the body verbatim. -/
def Http.print_body (m : Option Mime) (body : String) : Except String BodyOutput :=
  match m with
  | some v =>
    if v = Mime.APPLICATION_JSON then
      (Jsonxf.pretty_print body).map BodyOutput.jsonHighlighted
    else .ok (.verbatim body)
  | none => .ok (.verbatim body)

/-- `print_body` (`src/main.rs` lines 117-125): same branch selection, but
`jsonxf::pretty_print(body).unwrap()` crashes the process when the body is
not valid JSON. -/
def MainRs.print_body (m : Option Mime) (body : String) : Outcome BodyOutput :=
  match m with
  | some v =>
    if v = Mime.APPLICATION_JSON then
      match Jsonxf.pretty_print body with
      | .ok p => .ok (.jsonHighlighted p)
      | .error e => .crash ("called Result::unwrap() on an Err value: " ++ e)
    else .ok (.verbatim body)
  | none => .ok (.verbatim body)

/-- The Debug rendering of a `reqwest::header::HeaderValue` as printed by
`println!("{}: {:?}", name, value)`: the value in double quotes. -/
def debugHeaderValue (v : String) : String := "\"" ++ v ++ "\""

/-- `print_status` (`src/http/mod.rs` lines 38-42):
`println!("{}\n", format!("{:?} {}", version, status))` — the status line
followed by two newlines. -/
def print_status_out (r : Response) : String :=
  (r.version ++ " " ++ r.status) ++ "\n" ++ "\n"

/-- `print_headers` (`src/http/mod.rs` lines 44-50): one
`name: "value"` line per header, then one blank separator line. -/
def print_headers_out (r : Response) : String :=
  String.join (r.headers.map (fun h => h.1 ++ ": " ++ debugHeaderValue h.2 ++ "\n"))
    ++ "\n"

/-- `print_resp` (`src/http/mod.rs` lines 28-36): status, headers, then
the body rendered according to the derived content type. -/
def Http.print_resp (r : Response) : Except String String :=
  (Http.print_body (Http.get_content_type r) r.body).map
    (fun b => print_status_out r ++ print_headers_out r ++ b.rendered)

/-! ## POST dispatch (`src/http/post.rs` lines 10-19 and 44-52, `src/main.rs` lines 33-46 and 85-93) -/

/-- The `HashMap` body built by `post` (`src/http/post.rs` lines 44-48,
`src/main.rs` lines 85-89), viewed as its lookup function: insert each
pair in order, a later insert replacing an earlier one with the same key. -/
def post_body_map (body : List KvPair) : String → Option String :=
  body.foldl (fun m p => fun k => if k = p.key then some p.value else m k)
    (fun _ => none)

/-- The validator `src/http/post.rs` line 17 attaches to the POST `body`
field through the arg attribute: `parse_kv_pair`. -/
def Http.post_body_validator (s : String) : Except String KvPair :=
  parse_kv_pair s

/-- The validator `src/main.rs` line 44 actually attaches to the POST
`body` field through the arg attribute: `parse_url` — the URL validator,
not the KV-pair one. -/
def MainRs.post_body_validator (s : String) : Except String String :=
  parse_url s

/-! ## Claim theorems -/

/-- C8: for every string containing no `=` character (including the empty
string), `KvPair::from_str` fails with a malformed-pair error naming the
offending token. -/
theorem kv_no_eq_fails (s : String) (h : '=' ∉ s.data) :
    KvPair.from_str s = .error ("Failed to parse " ++ s) := by
  unfold KvPair.from_str
  rw [splitEq_of_not_mem s.data h]

/-- Witness for C8: the theorem applied at `abc` and at the empty string. -/
theorem kv_no_eq_fails_witness :
    KvPair.from_str "abc" = .error ("Failed to parse " ++ "abc") ∧
      KvPair.from_str "" = .error ("Failed to parse " ++ "") :=
  ⟨kv_no_eq_fails "abc" (by decide), kv_no_eq_fails "" (by decide)⟩

/-- C2 counterexample: the parser does not split on the first `=` only —
`a=b=c` parses to key `a` and value `b`, not value `b=c` as the claim
requires for `k = a`, `v = b=c`. -/
theorem kv_embedded_eq_counterexample :
    KvPair.from_str "a=b=c" = .ok ⟨"a", "b"⟩ ∧
      KvPair.from_str "a=b=c" ≠ .ok ⟨"a", "b=c"⟩ := by
  refine ⟨rfl, fun h => ?_⟩
  rw [show KvPair.from_str "a=b=c" = Except.ok ⟨"a", "b"⟩ from rfl] at h
  have h2 : (⟨"a", "b"⟩ : KvPair) = ⟨"a", "b=c"⟩ := by injection h
  have h3 : ("b" : String) = "b=c" := congrArg KvPair.value h2
  exact absurd h3 (by decide)

/-- C2 (amended): for every `k` containing no `=` and every `v` containing
no `=`, parsing `k=v` succeeds and yields the pair with key `k` and value
`v`; when `v` contains `=`, the value is truncated at the first `=` of
`v`. -/
theorem kv_parse_splits_at_first_eq (k v : List Char)
    (hk : '=' ∉ k) (hv : '=' ∉ v) :
    KvPair.from_str (String.mk (k ++ '=' :: v)) =
      .ok ⟨String.mk k, String.mk v⟩ := by
  unfold KvPair.from_str
  rw [show (String.mk (k ++ '=' :: v)).data = k ++ '=' :: v from rfl,
    splitEq_append k v hk, splitEq_of_not_mem v hv]

/-- Witness for C2 (amended): the theorem applied at `a=1`. -/
theorem kv_parse_splits_at_first_eq_witness :
    KvPair.from_str (String.mk (['a'] ++ '=' :: ['1'])) =
      .ok ⟨String.mk ['a'], String.mk ['1']⟩ :=
  kv_parse_splits_at_first_eq ['a'] ['1'] (by decide) (by decide)

/-- C10: for every string with two or more `=` characters — written as the
concatenation of `a`, `=`, `b`, `=`, `c` with `a` and `b` free of `=` and
`c` arbitrary — parsing succeeds with key `a` (the segment before the
first `=`) and value `b` (the segment strictly between the first and
second `=`), discarding everything from the second `=` onward. -/
theorem kv_two_eq_discards_tail (a b c : List Char)
    (ha : '=' ∉ a) (hb : '=' ∉ b) :
    KvPair.from_str (String.mk (a ++ '=' :: (b ++ '=' :: c))) =
      .ok ⟨String.mk a, String.mk b⟩ := by
  unfold KvPair.from_str
  rw [show (String.mk (a ++ '=' :: (b ++ '=' :: c))).data
      = a ++ '=' :: (b ++ '=' :: c) from rfl,
    splitEq_append a (b ++ '=' :: c) ha, splitEq_append b c hb]

/-- Witness for C10: the theorem applied at `x=y=z=w`. -/
theorem kv_two_eq_discards_tail_witness :
    KvPair.from_str (String.mk (['x'] ++ '=' :: (['y'] ++ '=' :: ['z', '=', 'w']))) =
      .ok ⟨String.mk ['x'], String.mk ['y']⟩ :=
  kv_two_eq_discards_tail ['x'] ['y'] ['z', '=', 'w'] (by decide) (by decide)

-- The insert fold, looked up at `k`, returns the value of the last pair
-- whose key is `k` (found by searching the reversed sequence).
theorem post_body_map_eq (body : List KvPair) (k : String) :
    post_body_map body k =
      (body.reverse.find? (fun p => p.key == k)).map KvPair.value := by
  induction body using List.reverseRecOn with
  | nil => rfl
  | append_singleton l a ih =>
    have hfold : post_body_map (l ++ [a]) k =
        if k = a.key then some a.value else post_body_map l k := by
      simp [post_body_map, List.foldl_append]
    rw [hfold, List.reverse_append]
    by_cases h : k = a.key
    · have hp : ((fun p => p.key == k) a) = true := by simp [h]
      rw [if_pos h]
      show some a.value =
        Option.map KvPair.value (List.find? (fun p => p.key == k) (a :: l.reverse))
      rw [@List.find?_cons_of_pos _ (fun p => p.key == k) a l.reverse hp]
      rfl
    · have hp : ¬((fun p => p.key == k) a = true) := by
        simp only [beq_iff_eq]
        exact fun hc => h hc.symm
      rw [if_neg h]
      show post_body_map l k =
        Option.map KvPair.value (List.find? (fun p => p.key == k) (a :: l.reverse))
      rw [@List.find?_cons_of_neg _ (fun p => p.key == k) a l.reverse hp]
      exact ih

-- The fold is defined exactly at the keys occurring in the sequence.
theorem post_body_map_keys (body : List KvPair) (k : String) :
    (post_body_map body k).isSome ↔ k ∈ body.map KvPair.key := by
  rw [post_body_map_eq, Option.isSome_map', List.find?_isSome]
  constructor
  · rintro ⟨p, hp, hk⟩
    rw [List.mem_reverse] at hp
    exact List.mem_map.mpr ⟨p, hp, beq_iff_eq.mp hk⟩
  · intro hk
    obtain ⟨p, hp, hke⟩ := List.mem_map.mp hk
    exact ⟨p, List.mem_reverse.mpr hp, beq_iff_eq.mpr hke⟩

/-- C7: the body map built at dispatch time maps each key to the value of
the last pair in the sequence having that key (last-write-wins), and is
defined exactly at the keys occurring in the sequence. -/
theorem post_body_map_last_write_wins (body : List KvPair) (k : String) :
    post_body_map body k =
      (body.reverse.find? (fun p => p.key == k)).map KvPair.value ∧
    ((post_body_map body k).isSome ↔ k ∈ body.map KvPair.key) :=
  ⟨post_body_map_eq body k, post_body_map_keys body k⟩

/-- C4: `print_body` selects the pretty-print-and-highlight branch iff the
content type equals `application/json` by exact MIME comparison; for any
other content type (including `application/json` with parameters) and for
an absent one, the body is printed verbatim, unmodified, with a trailing
newline. -/
theorem print_body_branch (m : Option Mime) (body : String) :
    (m = some Mime.APPLICATION_JSON →
      Http.print_body m body =
        (Jsonxf.pretty_print body).map BodyOutput.jsonHighlighted) ∧
    (m ≠ some Mime.APPLICATION_JSON →
      Http.print_body m body = .ok (.verbatim body) ∧
        (BodyOutput.verbatim body).rendered = body ++ "\n") := by
  constructor
  · rintro rfl
    simp [Http.print_body]
  · intro h
    refine ⟨?_, rfl⟩
    cases m with
    | none => rfl
    | some v =>
      have hv : v ≠ Mime.APPLICATION_JSON := fun hv => h (by rw [hv])
      simp [Http.print_body, hv]

/-- Witness for C4: the theorem applied at content type
`application/json; charset=utf-8` (parameters present, so not an exact
match) with body `hello`. -/
theorem print_body_branch_witness :
    Http.print_body (Mime.parse "application/json; charset=utf-8") "hello" =
        .ok (.verbatim "hello") ∧
      (BodyOutput.verbatim "hello").rendered = "hello" ++ "\n" :=
  (print_body_branch (Mime.parse "application/json; charset=utf-8") "hello").2
    (by decide)

/-- C5: `parse_url` succeeds iff the string parses as an absolute URL with
a scheme and a host, and on success it returns the original string
unchanged. -/
theorem parse_url_iff (s : String) :
    ((∃ t, parse_url s = .ok t) ↔ (Url.parse s).isSome) ∧
    (∀ t, parse_url s = .ok t → t = s) := by
  unfold parse_url
  cases h : Url.parse s with
  | none => simp
  | some u => simp

/-- Witness for C5: the theorem applied at `http://abc.xyz` (accepted,
returned unchanged) together with the spec's rejected vector `abc`. -/
theorem parse_url_iff_witness :
    parse_url "http://abc.xyz" = .ok "http://abc.xyz" ∧
      ¬∃ t, parse_url "abc" = .ok t := by
  refine ⟨rfl, fun hex => ?_⟩
  have h := ((parse_url_iff "abc").1).mp hex
  exact absurd h (by decide)

/-- C1: at the failing input — content type `application/json`, body
`not json` — the `src/main.rs` `print_body` crashes inside
`jsonxf::pretty_print(body).unwrap()` instead of returning a recoverable
render error; the refactored `src/http/mod.rs` copy of `print_body`
propagates a recoverable error for the same input. -/
theorem print_body_crashes_on_malformed_json :
    MainRs.print_body (some Mime.APPLICATION_JSON) "not json" =
      .crash ("called Result::unwrap() on an Err value: " ++
        ("Invalid JSON: " ++ "not json")) ∧
    Http.print_body (some Mime.APPLICATION_JSON) "not json" =
      .error ("Invalid JSON: " ++ "not json") :=
  ⟨rfl, rfl⟩

/-- C3: the failing input is the POST body token `http://abc.xyz`: the
KV-pair parser rejects it (it has no `=`), so the claim requires an abort
with a malformed-pair message, but the validator `src/main.rs` line 44
actually attaches to the `body` field is the URL validator, which accepts
the token, so no malformed-pair abort happens; `src/http/post.rs` line 17
attaches the KV-pair parser as the claim states. -/
theorem post_body_wrong_validator :
    MainRs.post_body_validator "http://abc.xyz" = .ok "http://abc.xyz" ∧
    Http.post_body_validator "http://abc.xyz" =
      .error ("Failed to parse " ++ "http://abc.xyz") :=
  ⟨rfl, rfl⟩

/-- C6: at the failing input — a `Content-Type` header present with the
unparseable value `garbage` — the `src/main.rs` `get_content_type`
crashes on `parse().unwrap()` instead of yielding an absent content type;
the `src/http/mod.rs` copy yields `none` there, and both agree that a
missing header yields `none`. -/
theorem get_content_type_crash_on_unparseable :
    MainRs.get_content_type ⟨"HTTP/1.1", "200 OK",
        [("content-type", "garbage")], ""⟩ =
      .crash "called Result::unwrap() on an Err value" ∧
    Http.get_content_type ⟨"HTTP/1.1", "200 OK",
        [("content-type", "garbage")], ""⟩ = none ∧
    Http.get_content_type ⟨"HTTP/1.1", "200 OK", [], ""⟩ = none ∧
    MainRs.get_content_type ⟨"HTTP/1.1", "200 OK", [], ""⟩ = .ok none :=
  ⟨rfl, rfl, rfl, rfl⟩

/-- C9 counterexample: rendering a concrete `text/plain` response puts a
blank line (line index 1 of the output) between the status line (index 0)
and the first header line (index 2), so lines other than headers do appear
between the status line and the first header. -/
theorem print_resp_blank_line_after_status :
    Http.print_resp ⟨"HTTP/1.1", "200 OK",
        [("content-type", "text/plain")], "hello"⟩ =
      .ok "HTTP/1.1 200 OK\n\ncontent-type: \"text/plain\"\n\nhello\n" ∧
    ((splitChar '\n'
        "HTTP/1.1 200 OK\n\ncontent-type: \"text/plain\"\n\nhello\n".data).take
        3).map String.mk =
      ["HTTP/1.1 200 OK", "", "content-type: \"text/plain\""] := by
  constructor
  · rfl
  · decide

-- String concatenation is associative (via the underlying character lists).
theorem string_append_assoc (a b c : String) : a ++ b ++ c = a ++ (b ++ c) := by
  apply String.ext
  simp [List.append_assoc]

/-- C9 (amended): the render emits, in order: the protocol version and
status code on one line, then one blank line, then each header as
`Name: value` (the value in its Debug form, quoted) one per line in
transport iteration order, then a single blank separator line, then the
rendered body. -/
theorem print_resp_layout (r : Response) (out : String)
    (h : Http.print_resp r = .ok out) :
    ∃ b, Http.print_body (Http.get_content_type r) r.body = .ok b ∧
      out = (r.version ++ " " ++ r.status) ++ "\n" ++ "\n" ++
        String.join (r.headers.map
          (fun p => p.1 ++ ": " ++ debugHeaderValue p.2 ++ "\n")) ++
        "\n" ++ BodyOutput.rendered b := by
  unfold Http.print_resp at h
  cases hb : Http.print_body (Http.get_content_type r) r.body with
  | error e => rw [hb] at h; cases h
  | ok b =>
    rw [hb] at h
    refine ⟨b, rfl, ?_⟩
    have hout : print_status_out r ++ print_headers_out r ++
        BodyOutput.rendered b = out := by
      cases h; rfl
    rw [← hout]
    unfold print_status_out print_headers_out
    simp only [string_append_assoc]

/-- Witness for C9 (amended): the theorem applied at a concrete
`x-test: 1` response with body `hi`. -/
theorem print_resp_layout_witness :
    ∃ b, Http.print_body
        (Http.get_content_type ⟨"HTTP/1.1", "200 OK", [("x-test", "1")], "hi"⟩)
        "hi" = .ok b ∧
      "HTTP/1.1 200 OK\n\nx-test: \"1\"\n\nhi\n" =
        ("HTTP/1.1" ++ " " ++ "200 OK") ++ "\n" ++ "\n" ++
        String.join ([("x-test", "1")].map
          (fun p => p.1 ++ ": " ++ debugHeaderValue p.2 ++ "\n")) ++
        "\n" ++ BodyOutput.rendered b :=
  print_resp_layout ⟨"HTTP/1.1", "200 OK", [("x-test", "1")], "hi"⟩
    "HTTP/1.1 200 OK\n\nx-test: \"1\"\n\nhi\n" rfl

/-- Witness for C7: the theorem applied at a two-pair body with a
duplicate key, where the later value `2` wins. -/
theorem post_body_map_last_write_wins_witness :
    (post_body_map [⟨"a", "1"⟩, ⟨"a", "2"⟩] "a" =
      (([⟨"a", "1"⟩, ⟨"a", "2"⟩] : List KvPair).reverse.find?
        (fun p => p.key == "a")).map KvPair.value ∧
    ((post_body_map [⟨"a", "1"⟩, ⟨"a", "2"⟩] "a").isSome ↔
      "a" ∈ ([⟨"a", "1"⟩, ⟨"a", "2"⟩] : List KvPair).map KvPair.key)) ∧
    post_body_map [⟨"a", "1"⟩, ⟨"a", "2"⟩] "a" = some "2" :=
  ⟨post_body_map_last_write_wins [⟨"a", "1"⟩, ⟨"a", "2"⟩] "a", rfl⟩
